import Mathlib

/-!
Verification of the AMM dApp repository: the quoting arithmetic, the slippage
bounds and allowance flow of the frontend (src/amm-frontend/src/App.tsx), and
the two routes of the backend (src/amm-backend/src/server.ts).  All machine
integers in the source are JavaScript BigInt values, embedded here as ℤ with
BigInt division written explicitly as Int.tdiv (truncation toward zero).
-/

namespace AMMVerify

/-- Closed error taxonomy of pricing and search failures (spec section 7). -/
inductive QuoteError where
  | InsufficientLiquidity
  | InvalidAmount
  | PoolNotFound
  | NoPathFound
  | InvalidSlippage
  deriving DecidableEq

/-- Modelled from the spec: the QuoteEngine is not present under src/ (only its
frontend caller is), so its fee step is taken from spec section 4.1:
amountInAfterFee = amountIn * (10000 - feeBps) / 10000, integer division
truncating toward zero. -/
def amountInAfterFee (feeBps amountIn : ℤ) : ℤ :=
  Int.tdiv (amountIn * (10000 - feeBps)) 10000

/-- Modelled from the spec: constant-product output of QuoteEngine.amountOut,
(amountInAfterFee * reserveOut) / (reserveIn + amountInAfterFee), integer
division truncating toward zero (spec section 4.1). -/
def constantProductOut (reserveIn reserveOut f : ℤ) : ℤ :=
  Int.tdiv (f * reserveOut) (reserveIn + f)

/-- Modelled from the spec: QuoteEngine.amountOut (spec section 4.1), absent
from src/.  Fails with InsufficientLiquidity when a reserve is zero, with
InvalidAmount when amountIn is nonpositive, and otherwise applies the
fee-adjusted constant-product formula with truncating division. -/
def amountOut (reserveIn reserveOut feeBps amountIn : ℤ) : Except QuoteError ℤ :=
  if reserveIn = 0 ∨ reserveOut = 0 then Except.error QuoteError.InsufficientLiquidity
  else if amountIn ≤ 0 then Except.error QuoteError.InvalidAmount
  else Except.ok (constantProductOut reserveIn reserveOut (amountInAfterFee feeBps amountIn))

/-- Router contract address, from the contracts module of the repository. -/
def routerAddr : String := "0xfB312a26b6fB55C1C93a9280625166FeFfD1199b"

/-- Slippage bound computed in doSwap (App.tsx lines 577-578):
minOut = (expectedOut * BigInt(10000 - swSlippageBps)) / 10000n, BigInt
division truncating toward zero. -/
def minOutOf (expectedOut slippageBps : ℤ) : ℤ :=
  Int.tdiv (expectedOut * (10000 - slippageBps)) 10000

/-- Argument tuple of router.swapExactTokensForTokens as built in doSwap. -/
structure SwapCall where
  amountIn : ℤ
  minAmountOut : ℤ
  path : List String
  deriving DecidableEq

/-- Argument tuple of router.addLiquidity as built in doAddLiquidity. -/
structure AddLiquidityCall where
  tokenA : String
  tokenB : String
  amountADesired : ℤ
  amountBDesired : ℤ
  minAmountA : ℤ
  minAmountB : ℤ
  deriving DecidableEq

/-- Argument tuple of router.removeLiquidity as built in doRemoveLiquidity. -/
structure RemoveLiquidityCall where
  tokenA : String
  tokenB : String
  lpAmount : ℤ
  minAmountA : ℤ
  minAmountB : ℤ
  deriving DecidableEq

/-- A transaction submitted to the chain by one of the frontend flows. -/
inductive ChainAction where
  | approve (token : String) (spender : String) (amount : ℤ)
  | swapExactTokensForTokens (c : SwapCall)
  | addLiquidity (c : AddLiquidityCall)
  | removeLiquidity (c : RemoveLiquidityCall)
  | removeLiquidityDirect (lpAmount : ℤ)
  deriving DecidableEq

/-- The swap call submitted by doSwap (App.tsx lines 592-610): amountIn, the
slippage-bounded minimum output, and the routed token path, unmodified. -/
def swapCallOf (amountIn expectedOut slippageBps : ℤ) (path : List String) : SwapCall :=
  SwapCall.mk amountIn (minOutOf expectedOut slippageBps) path

/-- doSwap (App.tsx lines 560-626) from the point where amountIn and the
selected path data are available: the router is approved for amountIn exactly
when the current allowance is below amountIn, and afterwards the swap call is
submitted. -/
def doSwapActions (sellToken : String) (currentAllowance amountIn expectedOut slippageBps : ℤ)
    (path : List String) : List ChainAction :=
  (if currentAllowance < amountIn then [ChainAction.approve sellToken routerAddr amountIn] else [])
    ++ [ChainAction.swapExactTokensForTokens (swapCallOf amountIn expectedOut slippageBps path)]

/-- The addLiquidity call built in doAddLiquidity (App.tsx lines 408-434):
minimum amounts are a fixed 0.5 percent below the desired amounts,
(amountDesired * 995n) / 1000n with BigInt truncating division. -/
def addLiquidityCallOf (tokenA tokenB : String) (aDesired bDesired : ℤ) : AddLiquidityCall :=
  AddLiquidityCall.mk tokenA tokenB aDesired bDesired
    (Int.tdiv (aDesired * 995) 1000) (Int.tdiv (bDesired * 995) 1000)

/-- doAddLiquidity (App.tsx lines 363-451): the balance checks abort the flow
before any transaction; each token is approved for its desired amount exactly
when its allowance is below that amount; then the addLiquidity call is
submitted. -/
def doAddLiquidityActions (tokenA tokenB : String)
    (balanceA balanceB allowanceA allowanceB aDesired bDesired : ℤ) :
    Option (List ChainAction) :=
  if balanceA < aDesired then none
  else if balanceB < bDesired then none
  else some
    ((if allowanceA < aDesired then [ChainAction.approve tokenA routerAddr aDesired] else [])
      ++ (if allowanceB < bDesired then [ChainAction.approve tokenB routerAddr bDesired] else [])
      ++ [ChainAction.addLiquidity (addLiquidityCallOf tokenA tokenB aDesired bDesired)])

/-- The removeLiquidity call built in doRemoveLiquidity (App.tsx lines
702-710): both minimum amounts are the literal constant 0. -/
def removeLiquidityCallOf (tokenA tokenB : String) (lpAmount : ℤ) : RemoveLiquidityCall :=
  RemoveLiquidityCall.mk tokenA tokenB lpAmount 0 0

/-- doRemoveLiquidity (App.tsx lines 685-727): the pair is approved, then the
router removeLiquidity call with zero minimums is submitted; when that call
fails the code falls back to the AMM contract removeLiquidity(amount), which
carries no minimum bound at all. -/
def doRemoveLiquidityActions (routerCallSucceeds : Bool) (pairAddr tokenA tokenB : String)
    (lpAmount : ℤ) : List ChainAction :=
  if routerCallSucceeds then
    [ChainAction.approve pairAddr routerAddr lpAmount,
     ChainAction.removeLiquidity (removeLiquidityCallOf tokenA tokenB lpAmount)]
  else
    [ChainAction.approve pairAddr routerAddr lpAmount,
     ChainAction.removeLiquidity (removeLiquidityCallOf tokenA tokenB lpAmount),
     ChainAction.removeLiquidityDirect lpAmount]

/-- Outcome of the paired-deposit suggestion hook.  The failed constructor
exists so that absence of failures is statable; the source never produces it. -/
inductive RatioOutcome where
  | unconstrained
  | suggested (amountB : ℤ)
  | failed (e : QuoteError)
  deriving DecidableEq

/-- Paired-deposit suggestion effect (App.tsx lines 337-360).  With no pair the
hook returns early and both typed amounts stand as supplied; with a pair and
both reserves nonzero it suggests amountAWei * resOut / resIn (BigInt
truncating division, keeping the dead zero-divisor guard of the source); in
every other case it does nothing, again leaving both amounts as supplied. -/
def suggestedBOutcome (pairExists : Bool) (resIn resOut amountAWei : ℤ) : RatioOutcome :=
  if pairExists = false then RatioOutcome.unconstrained
  else if resIn ≠ 0 ∧ resOut ≠ 0 then
    RatioOutcome.suggested (if resIn = 0 then 0 else Int.tdiv (amountAWei * resOut) resIn)
  else RatioOutcome.unconstrained

/-- quoteSwap estimate (App.tsx lines 488-538): the backend optimal-path
response is used when it succeeds; on any failure the code silently retries
with a direct router getAmountsOut quote on the same inputs; the estimate is
cleared only when that fallback fails too. -/
def quoteSwapEstimate (pathServiceResp : Option ℤ) (routerResp : Option ℤ) : Option ℤ :=
  match pathServiceResp with
  | some out => some out
  | none => routerResp

/-- Path separator of URL routes. -/
def slashChar : Char := '/'

/-- Collect slash-separated segments of a character list; the accumulator holds
the current segment reversed. -/
def segsAux : List Char → List Char → List (List Char)
  | [], acc => if acc.isEmpty then [] else [acc.reverse]
  | c :: rest, acc =>
    if c = slashChar then
      (if acc.isEmpty then segsAux rest [] else acc.reverse :: segsAux rest [])
    else segsAux rest (c :: acc)

/-- Nonempty slash-separated segments of a URL path. -/
def pathSegments (p : String) : List String :=
  (segsAux p.toList []).map (fun cs => String.mk cs)

/-- One segment of an Express route pattern: a literal or a named parameter. -/
inductive RouteSeg where
  | lit (s : String)
  | param (name : String)
  deriving DecidableEq

/-- Express segment matching: a literal matches itself, a parameter matches any
segment. -/
def segMatches : RouteSeg → String → Bool
  | RouteSeg.lit s, t => s == t
  | RouteSeg.param _, _ => true

/-- Express route matching on whole paths: same number of segments, matching
segmentwise. -/
def routeMatches (pattern : List RouteSeg) (path : String) : Bool :=
  let segs := pathSegments path
  pattern.length == segs.length && (pattern.zip segs).all (fun pt => segMatches pt.1 pt.2)

/-- Route registered by app.get for the pool list (server.ts line 7). -/
def poolRoute : List RouteSeg := [RouteSeg.lit ("pool")]

/-- Route registered by app.get for a single pool (server.ts line 16). -/
def poolIdRoute : List RouteSeg := [RouteSeg.lit ("pool"), RouteSeg.param ("id")]

/-- All routes registered by the backend server. -/
def backendRoutes : List (List RouteSeg) := [poolRoute, poolIdRoute]

/-- Path requested by the frontend fetchPools (App.tsx line 81). -/
def fetchPoolsPath : String := "/pools"

/-- A stored pool row, as far as the id lookup of the handler observes it. -/
structure PoolRecord where
  id : ℤ
  deriving DecidableEq

/-- JSON body of a backend response: either a serialized pool or null. -/
inductive JsonBody where
  | jnull
  | jpool (p : PoolRecord)
  deriving DecidableEq

/-- An HTTP response, status code plus JSON body. -/
structure HttpResponse where
  status : ℕ
  body : JsonBody
  deriving DecidableEq

/-- prisma.pool.findUnique on id (server.ts lines 18-21): the record with the
requested id, or none when absent. -/
def findUniquePool (db : List PoolRecord) (i : ℤ) : Option PoolRecord :=
  db.find? (fun p => p.id == i)

/-- The GET /pool/:id handler (server.ts lines 16-24): res.json of the
findUnique result under the default success status 200; a missing pool
serializes as the JSON body null. -/
def getPoolByIdHandler (db : List PoolRecord) (i : ℤ) : HttpResponse :=
  HttpResponse.mk 200
    (match findUniquePool db i with
      | some p => JsonBody.jpool p
      | none => JsonBody.jnull)

/-! ## Helper lemmas on euclidean division -/

/-- Cross-multiplied comparison of euclidean quotients with positive
denominators. -/
theorem ediv_le_ediv_of_cross {a b m n : ℤ} (hm : 0 < m) (hn : 0 < n)
    (h : a * n ≤ b * m) : a / m ≤ b / n := by
  rw [Int.le_ediv_iff_mul_le hn]
  have h1 : a / m * m ≤ a := Int.ediv_mul_le a (ne_of_gt hm)
  have h2 : a / m * n * m ≤ b * m := by
    calc a / m * n * m = a / m * m * n := by ring
    _ ≤ a * n := mul_le_mul_of_nonneg_right h1 (le_of_lt hn)
    _ ≤ b * m := h
  exact le_of_mul_le_mul_right h2 hm

/-- The fee-adjusted amount is nonnegative for a nonnegative input and a fee
below 10000 bps. -/
theorem amountInAfterFee_nonneg {feeBps amountIn : ℤ} (hf : feeBps < 10000)
    (ha : 0 ≤ amountIn) : 0 ≤ amountInAfterFee feeBps amountIn := by
  unfold amountInAfterFee
  have hnum : 0 ≤ amountIn * (10000 - feeBps) := mul_nonneg ha (by omega)
  rw [Int.tdiv_eq_ediv hnum (by omega)]
  exact Int.ediv_nonneg hnum (by omega)

/-- The fee-adjusted amount is monotone in the input amount. -/
theorem amountInAfterFee_mono {feeBps a1 a2 : ℤ} (hf : feeBps < 10000)
    (h0 : 0 ≤ a1) (h12 : a1 ≤ a2) :
    amountInAfterFee feeBps a1 ≤ amountInAfterFee feeBps a2 := by
  unfold amountInAfterFee
  have h1 : 0 ≤ a1 * (10000 - feeBps) := mul_nonneg h0 (by omega)
  have h2 : 0 ≤ a2 * (10000 - feeBps) := mul_nonneg (le_trans h0 h12) (by omega)
  rw [Int.tdiv_eq_ediv h1 (by omega), Int.tdiv_eq_ediv h2 (by omega)]
  exact Int.ediv_le_ediv (by omega) (mul_le_mul_of_nonneg_right h12 (by omega))

/-- The constant-product output is monotone in the fee-adjusted input. -/
theorem constantProductOut_mono {rIn rOut f1 f2 : ℤ} (hrIn : 0 < rIn) (hrOut : 0 < rOut)
    (h0 : 0 ≤ f1) (h12 : f1 ≤ f2) :
    constantProductOut rIn rOut f1 ≤ constantProductOut rIn rOut f2 := by
  unfold constantProductOut
  have hm : 0 < rIn + f1 := by omega
  have hn : 0 < rIn + f2 := by omega
  have hnum1 : 0 ≤ f1 * rOut := mul_nonneg h0 (le_of_lt hrOut)
  have hnum2 : 0 ≤ f2 * rOut := mul_nonneg (le_trans h0 h12) (le_of_lt hrOut)
  rw [Int.tdiv_eq_ediv hnum1 (le_of_lt hm), Int.tdiv_eq_ediv hnum2 (le_of_lt hn)]
  apply ediv_le_ediv_of_cross hm hn
  nlinarith [mul_nonneg (mul_nonneg (le_of_lt hrOut) (le_of_lt hrIn)) (sub_nonneg.mpr h12)]

/-- The constant-product output is strictly below the output reserve. -/
theorem constantProductOut_lt {rIn rOut f : ℤ} (hrIn : 0 < rIn) (hrOut : 0 < rOut)
    (h0 : 0 ≤ f) : constantProductOut rIn rOut f < rOut := by
  unfold constantProductOut
  have hm : 0 < rIn + f := by omega
  have hnum : 0 ≤ f * rOut := mul_nonneg h0 (le_of_lt hrOut)
  rw [Int.tdiv_eq_ediv hnum (le_of_lt hm), Int.ediv_lt_iff_lt_mul hm]
  nlinarith [mul_pos hrOut hrIn]

/-- The last action submitted by the swap flow is always the swap call with the
slippage-bounded minimum output. -/
theorem doSwapActions_getLast (tok : String) (allw aIn expOut bps : ℤ) (path : List String) :
    (doSwapActions tok allw aIn expOut bps path).getLast? =
      some (ChainAction.swapExactTokensForTokens (swapCallOf aIn expOut bps path)) := by
  unfold doSwapActions
  by_cases h : allw < aIn
  · rw [if_pos h]
    rfl
  · rw [if_neg h]
    rfl

/-! ## Claim theorems -/

/-- Claim C1: amountOut computes the fee-adjusted constant-product quote with
truncating integer division, fails with InsufficientLiquidity on a zero
reserve and with InvalidAmount on a nonpositive input, and on reserves
(10000000, 20000000000) with fee 30 bps and input 1000000, the fee-adjusted
input is 997000 and the result is exactly
floor(997000 * 20000000000 / (10000000 + 997000)). -/
theorem amountOut_spec :
    (∀ reserveIn reserveOut feeBps amountIn : ℤ,
      (reserveIn = 0 ∨ reserveOut = 0 →
        amountOut reserveIn reserveOut feeBps amountIn =
          Except.error QuoteError.InsufficientLiquidity) ∧
      (reserveIn ≠ 0 → reserveOut ≠ 0 → amountIn ≤ 0 →
        amountOut reserveIn reserveOut feeBps amountIn =
          Except.error QuoteError.InvalidAmount) ∧
      (reserveIn ≠ 0 → reserveOut ≠ 0 → 0 < amountIn →
        amountOut reserveIn reserveOut feeBps amountIn =
          Except.ok (Int.tdiv (Int.tdiv (amountIn * (10000 - feeBps)) 10000 * reserveOut)
            (reserveIn + Int.tdiv (amountIn * (10000 - feeBps)) 10000)))) ∧
    amountInAfterFee 30 1000000 = 997000 ∧
    amountOut 10000000 20000000000 30 1000000 =
      Except.ok (Int.fdiv (997000 * 20000000000) (10000000 + 997000)) := by
  refine ⟨fun rIn rOut fee aIn => ⟨?_, ?_, ?_⟩, by decide, rfl⟩
  · intro h
    unfold amountOut
    rw [if_pos h]
  · intro h1 h2 h3
    unfold amountOut
    rw [if_neg (by omega), if_pos h3]
  · intro h1 h2 h3
    unfold amountOut constantProductOut amountInAfterFee
    rw [if_neg (by omega), if_neg (by omega)]

/-- Claim C1 witness: the theorem applied at the concrete scenario of the
claim, and at a zero-reserve input. -/
theorem amountOut_spec_witness :
    amountOut 10000000 20000000000 30 1000000 =
      Except.ok (Int.tdiv (Int.tdiv (1000000 * (10000 - 30)) 10000 * 20000000000)
        (10000000 + Int.tdiv (1000000 * (10000 - 30)) 10000)) :=
  (amountOut_spec.1 10000000 20000000000 30 1000000).2.2
    (by decide) (by decide) (by decide)

/-- Claim C2 counterexample: with reserves (1000, 1), fee 0 and the valid
inputs 1 < 2, both quotes are 0, so amountOut is not strictly increasing in
amountIn. -/
theorem amountOut_not_strictly_increasing :
    (1 : ℤ) < 2 ∧ amountOut 1000 1 0 1 = Except.ok 0 ∧ amountOut 1000 1 0 2 = Except.ok 0 :=
  ⟨by decide, rfl, rfl⟩

/-- Claim C2 amended: for positive reserves, fee in [0, 10000) and positive
inputs, amountOut succeeds, is monotone nondecreasing in amountIn, and is
strictly less than reserveOut; strict increase fails under truncating
division. -/
theorem amountOut_mono_and_bounded :
    ∀ reserveIn reserveOut feeBps a1 a2 : ℤ,
      0 < reserveIn → 0 < reserveOut → 0 ≤ feeBps → feeBps < 10000 → 0 < a1 → a1 ≤ a2 →
      amountOut reserveIn reserveOut feeBps a1 =
          Except.ok (constantProductOut reserveIn reserveOut (amountInAfterFee feeBps a1)) ∧
      amountOut reserveIn reserveOut feeBps a2 =
          Except.ok (constantProductOut reserveIn reserveOut (amountInAfterFee feeBps a2)) ∧
      constantProductOut reserveIn reserveOut (amountInAfterFee feeBps a1) ≤
          constantProductOut reserveIn reserveOut (amountInAfterFee feeBps a2) ∧
      constantProductOut reserveIn reserveOut (amountInAfterFee feeBps a2) < reserveOut := by
  intro rIn rOut fee a1 a2 hrIn hrOut hf0 hf ha1 h12
  have ha2 : 0 < a2 := lt_of_lt_of_le ha1 h12
  refine ⟨?_, ?_, ?_, ?_⟩
  · unfold amountOut
    rw [if_neg (by omega), if_neg (by omega)]
  · unfold amountOut
    rw [if_neg (by omega), if_neg (by omega)]
  · exact constantProductOut_mono hrIn hrOut
      (amountInAfterFee_nonneg hf (le_of_lt ha1)) (amountInAfterFee_mono hf (le_of_lt ha1) h12)
  · exact constantProductOut_lt hrIn hrOut (amountInAfterFee_nonneg hf (le_of_lt ha2))

/-- Claim C2 witness: the amended theorem applied at concrete valid inputs. -/
theorem amountOut_mono_and_bounded_witness :
    amountOut 10 100 30 5 = Except.ok (constantProductOut 10 100 (amountInAfterFee 30 5)) ∧
    amountOut 10 100 30 9 = Except.ok (constantProductOut 10 100 (amountInAfterFee 30 9)) ∧
    constantProductOut 10 100 (amountInAfterFee 30 5) ≤
      constantProductOut 10 100 (amountInAfterFee 30 9) ∧
    constantProductOut 10 100 (amountInAfterFee 30 9) < 100 :=
  amountOut_mono_and_bounded 10 100 30 5 9 (by decide) (by decide) (by decide)
    (by decide) (by decide) (by decide)

/-- Claim C3: the exact-input slippage bound of doSwap equals
floor(outputAmount * (10000 - toleranceBps) / 10000) for tolerances in
[0, 10000); output 1000 at 100 bps gives 990; and the bound is exactly the
value carried by the submitted swap transaction. -/
theorem minOut_exact_input_bound :
    (∀ outAmt tolBps : ℤ, 0 ≤ outAmt → 0 ≤ tolBps → tolBps < 10000 →
      minOutOf outAmt tolBps = Int.fdiv (outAmt * (10000 - tolBps)) 10000) ∧
    minOutOf 1000 100 = 990 ∧
    (∀ (tok : String) (allw aIn expOut bps : ℤ) (path : List String),
      (doSwapActions tok allw aIn expOut bps path).getLast? =
        some (ChainAction.swapExactTokensForTokens
          (SwapCall.mk aIn (minOutOf expOut bps) path))) := by
  refine ⟨?_, by decide, ?_⟩
  · intro o t ho ht0 ht
    unfold minOutOf
    have hnum : 0 ≤ o * (10000 - t) := mul_nonneg ho (by omega)
    rw [Int.tdiv_eq_ediv hnum (by omega), Int.fdiv_eq_ediv _ (by omega)]
  · intro tok allw aIn expOut bps path
    exact doSwapActions_getLast tok allw aIn expOut bps path

/-- Claim C3 witness: the theorem applied at the concrete tolerance scenario of
the claim. -/
theorem minOut_exact_input_bound_witness :
    minOutOf 1000 100 = Int.fdiv (1000 * (10000 - 100)) 10000 :=
  minOut_exact_input_bound.1 1000 100 (by decide) (by decide) (by decide)

/-- Claim C4 counterexample: the remove-liquidity transaction is submitted with
minimum-amount bounds that are the constant 0, independent of any quote or
tolerance, and the fallback submission carries no bound parameter at all. -/
theorem removeLiquidity_zero_bounds :
    (removeLiquidityCallOf ("0xTA") ("0xTB") 5).minAmountA = 0 ∧
    (removeLiquidityCallOf ("0xTA") ("0xTB") 5).minAmountB = 0 ∧
    doRemoveLiquidityActions false ("0xPair") ("0xTA") ("0xTB") 5 =
      [ChainAction.approve ("0xPair") routerAddr 5,
       ChainAction.removeLiquidity (removeLiquidityCallOf ("0xTA") ("0xTB") 5),
       ChainAction.removeLiquidityDirect 5] :=
  ⟨rfl, rfl, rfl⟩

/-- Claim C4 amended: the swap carries a minimum output derived from the quoted
output and the user tolerance, handed unmodified to the settlement call;
add-liquidity carries minimums fixed at 0.5 percent below the desired amounts;
but remove-liquidity is submitted with zero minimum bounds, and its direct
fallback carries no bound at all, so not every state-changing transaction
carries an enforceable bound. -/
theorem slippage_bounds_by_operation :
    (∀ (tok : String) (allw aIn expOut bps : ℤ) (path : List String),
      (doSwapActions tok allw aIn expOut bps path).getLast? =
        some (ChainAction.swapExactTokensForTokens
          (SwapCall.mk aIn (minOutOf expOut bps) path))) ∧
    (∀ (tA tB : String) (a b : ℤ),
      (addLiquidityCallOf tA tB a b).minAmountA = Int.tdiv (a * 995) 1000 ∧
      (addLiquidityCallOf tA tB a b).minAmountB = Int.tdiv (b * 995) 1000) ∧
    (∀ (tA tB : String) (amt : ℤ),
      (removeLiquidityCallOf tA tB amt).minAmountA = 0 ∧
      (removeLiquidityCallOf tA tB amt).minAmountB = 0) ∧
    (∀ (ok : Bool) (pa tA tB : String) (amt : ℤ),
      ok = false →
        ChainAction.removeLiquidityDirect amt ∈ doRemoveLiquidityActions ok pa tA tB amt) := by
  refine ⟨?_, ?_, ?_, ?_⟩
  · intro tok allw aIn expOut bps path
    exact doSwapActions_getLast tok allw aIn expOut bps path
  · intro tA tB a b
    exact ⟨rfl, rfl⟩
  · intro tA tB amt
    exact ⟨rfl, rfl⟩
  · intro ok pa tA tB amt h
    subst h
    unfold doRemoveLiquidityActions
    simp

/-- Claim C4 witness: the amended theorem applied at a concrete failing router
call, exhibiting the bound-free fallback submission. -/
theorem slippage_bounds_by_operation_witness :
    ChainAction.removeLiquidityDirect 7 ∈
      doRemoveLiquidityActions false ("0xP") ("0xA") ("0xB") 7 :=
  slippage_bounds_by_operation.2.2.2 false ("0xP") ("0xA") ("0xB") 7 rfl

/-- Claim C5: with both reserves positive, the paired-deposit suggestion is
floor(amountIn * reserveOut / reserveIn); reserves (1000, 2000) with amountIn
100 give 200. -/
theorem suggestedB_floor :
    (∀ resIn resOut amountAWei : ℤ, 0 < resIn → 0 < resOut → 0 ≤ amountAWei →
      suggestedBOutcome true resIn resOut amountAWei =
        RatioOutcome.suggested (Int.fdiv (amountAWei * resOut) resIn)) ∧
    suggestedBOutcome true 1000 2000 100 = RatioOutcome.suggested 200 := by
  constructor
  · intro rI rO a hI hO ha
    unfold suggestedBOutcome
    rw [if_neg (by decide), if_pos ⟨by omega, by omega⟩, if_neg (by omega)]
    have hnum : 0 ≤ a * rO := mul_nonneg ha (le_of_lt hO)
    rw [Int.tdiv_eq_ediv hnum (le_of_lt hI), Int.fdiv_eq_ediv _ (le_of_lt hI)]
  · decide

/-- Claim C5 witness: the theorem applied at the concrete reserves of the
claim. -/
theorem suggestedB_floor_witness :
    suggestedBOutcome true 1000 2000 100 =
      RatioOutcome.suggested (Int.fdiv (100 * 2000) 1000) :=
  suggestedB_floor.1 1000 2000 100 (by decide) (by decide) (by decide)

/-- Claim C6 counterexample: with a pair present and inconsistent reserves
(0, 5), the hook silently leaves both amounts as supplied; it does not fail
with InsufficientLiquidity. -/
theorem inconsistent_reserves_no_error :
    suggestedBOutcome true 0 5 100 = RatioOutcome.unconstrained ∧
    suggestedBOutcome true 0 5 100 ≠ RatioOutcome.failed QuoteError.InsufficientLiquidity :=
  ⟨rfl, by decide⟩

/-- Claim C6 amended: the first deposit (no pair) yields the unconstrained
outcome and no error; when reserves exist but one side is zero the code also
yields the unconstrained outcome rather than failing with
InsufficientLiquidity; no input produces any failure. -/
theorem liquidity_outcomes :
    (∀ resIn resOut a : ℤ, suggestedBOutcome false resIn resOut a = RatioOutcome.unconstrained) ∧
    (∀ (pe : Bool) (resIn resOut a : ℤ), resIn = 0 ∨ resOut = 0 →
      suggestedBOutcome pe resIn resOut a = RatioOutcome.unconstrained) ∧
    (∀ (pe : Bool) (resIn resOut a : ℤ) (e : QuoteError),
      suggestedBOutcome pe resIn resOut a ≠ RatioOutcome.failed e) := by
  refine ⟨?_, ?_, ?_⟩
  · intro resIn resOut a
    rfl
  · intro pe resIn resOut a h
    cases pe
    · rfl
    · unfold suggestedBOutcome
      rw [if_neg (by decide), if_neg (by omega)]
  · intro pe resIn resOut a e
    unfold suggestedBOutcome
    split
    · simp
    · split <;> simp

/-- Claim C6 witness: the amended theorem applied at a pair with inconsistent
reserves. -/
theorem liquidity_outcomes_witness :
    suggestedBOutcome true 0 9 4 = RatioOutcome.unconstrained :=
  liquidity_outcomes.2.1 true 0 9 4 (Or.inl rfl)

/-- Claim C7: when the current allowance covers the required amount, no
approval is issued and the state-changing call is submitted directly; when it
does not, an approval for exactly the required amount is issued before the
state-changing call, for both the swap flow and the add-liquidity flow. -/
theorem ensure_allowance_flow :
    ∀ (tok tA tB : String) (allw balA balB alwA alwB aIn expOut bps aD bD : ℤ)
      (path : List String),
      (aIn ≤ allw →
        doSwapActions tok allw aIn expOut bps path =
          [ChainAction.swapExactTokensForTokens (swapCallOf aIn expOut bps path)]) ∧
      (allw < aIn →
        doSwapActions tok allw aIn expOut bps path =
          [ChainAction.approve tok routerAddr aIn,
           ChainAction.swapExactTokensForTokens (swapCallOf aIn expOut bps path)]) ∧
      (¬ balA < aD → ¬ balB < bD → aD ≤ alwA → bD ≤ alwB →
        doAddLiquidityActions tA tB balA balB alwA alwB aD bD =
          some [ChainAction.addLiquidity (addLiquidityCallOf tA tB aD bD)]) ∧
      (¬ balA < aD → ¬ balB < bD → alwA < aD → alwB < bD →
        doAddLiquidityActions tA tB balA balB alwA alwB aD bD =
          some [ChainAction.approve tA routerAddr aD,
            ChainAction.approve tB routerAddr bD,
            ChainAction.addLiquidity (addLiquidityCallOf tA tB aD bD)]) := by
  intro tok tA tB allw balA balB alwA alwB aIn expOut bps aD bD path
  refine ⟨?_, ?_, ?_, ?_⟩
  · intro h
    unfold doSwapActions
    rw [if_neg (by omega)]
    rfl
  · intro h
    unfold doSwapActions
    rw [if_pos h]
    rfl
  · intro h1 h2 h3 h4
    unfold doAddLiquidityActions
    rw [if_neg h1, if_neg h2, if_neg (by omega), if_neg (by omega)]
    rfl
  · intro h1 h2 h3 h4
    unfold doAddLiquidityActions
    rw [if_neg h1, if_neg h2, if_pos h3, if_pos h4]
    rfl

/-- Claim C7 witness: the theorem applied with an insufficient allowance, so an
approval for the required amount precedes the swap, and with a sufficient
allowance, so the swap is submitted alone. -/
theorem ensure_allowance_flow_witness :
    doSwapActions ("0xSell") 0 5 100 100 ([]) =
      [ChainAction.approve ("0xSell") routerAddr 5,
       ChainAction.swapExactTokensForTokens (swapCallOf 5 100 100 ([]))] ∧
    doSwapActions ("0xSell") 9 5 100 100 ([]) =
      [ChainAction.swapExactTokensForTokens (swapCallOf 5 100 100 ([]))] :=
  ⟨(ensure_allowance_flow ("0xSell") ("0xA") ("0xB") 0 0 0 0 0 5 100 100 1 1 ([])).2.1
      (by decide),
   (ensure_allowance_flow ("0xSell") ("0xA") ("0xB") 9 0 0 0 0 5 100 100 1 1 ([])).1
      (by decide)⟩

/-- Claim C8 counterexample: when the path-service quote fails, the estimate is
silently taken from the direct router fallback quote on the same inputs
instead of reporting the failure. -/
theorem quote_fallback :
    quoteSwapEstimate none (some 5) = some 5 ∧ quoteSwapEstimate none (some 5) ≠ none :=
  ⟨rfl, by decide⟩

/-- Claim C8 amended: a failed path-service quote is retried through the direct
router quote with the same inputs; the empty estimate is surfaced only when
that fallback also fails; a successful path-service quote is used as is. -/
theorem quote_fallback_policy :
    (∀ r : Option ℤ, quoteSwapEstimate none r = r) ∧
    (∀ (v : ℤ) (r : Option ℤ), quoteSwapEstimate (some v) r = some v) ∧
    quoteSwapEstimate none none = none :=
  ⟨fun _ => rfl, fun _ _ => rfl, rfl⟩

/-- Claim C9: fetchPools requests the path /pools, which matches neither
registered backend route /pool nor /pool/:id, so the pool-list request is
served by no route of this backend. -/
theorem fetchPools_route_mismatch :
    fetchPoolsPath = ("/pools") ∧
    routeMatches poolRoute fetchPoolsPath = false ∧
    routeMatches poolIdRoute fetchPoolsPath = false ∧
    backendRoutes = [poolRoute, poolIdRoute] := by
  refine ⟨rfl, by decide, by decide, rfl⟩

/-- Claim C10: when no stored pool has the requested id, GET /pool/:id responds
with status 200 and the JSON body null, not a named failure kind. -/
theorem getPoolById_null_on_missing :
    ∀ (db : List PoolRecord) (i : ℤ), (∀ p ∈ db, p.id ≠ i) →
      getPoolByIdHandler db i = HttpResponse.mk 200 JsonBody.jnull := by
  intro db i h
  unfold getPoolByIdHandler findUniquePool
  have hnone : db.find? (fun p => p.id == i) = none := by
    rw [List.find?_eq_none]
    intro p hp
    simpa using h p hp
  rw [hnone]

/-- Claim C10 witness: the theorem applied to a store holding only pool id 1
and the request id 7. -/
theorem getPoolById_null_on_missing_witness :
    getPoolByIdHandler [PoolRecord.mk 1] 7 = HttpResponse.mk 200 JsonBody.jnull :=
  getPoolById_null_on_missing [PoolRecord.mk 1] 7 (by decide)

end AMMVerify
